import Mathlib

/-!
Shallow embedding of the pyaudio_helper auxiliary components (stereo
pack/unpack, capture buffer, callback timing instrumentation, loop playback,
duplex stream wrapper).  The helper module itself ships outside this
repository snapshot (the notebook only calls its API), so every definition
below is modelled from the specification's description of the corresponding
operation, as its doc comment records.  Samples and timestamps are exact
rationals.
-/

/-- Modelled from the spec: the error kinds of section 7 (DeviceError,
UndersizedFrameError, LengthMismatchError, InvalidLengthError, PairingError);
the pyaudio_helper module defining them is not in the snapshot. -/
inductive DSPError where
  | DeviceError
  | UndersizedFrameError
  | LengthMismatchError
  | InvalidLengthError
  | PairingError
deriving DecidableEq, Repr

/-- Modelled from the spec: the deterministic interleave
(left, right, left, right, ...) used by the stereo pack helper pack_LR,
whose source is not in the snapshot. -/
def interleave : List ℚ → List ℚ → List ℚ
  | l :: ls, r :: rs => l :: r :: interleave ls rs
  | _, _ => []

/-- Modelled from the spec: the inverse of the interleave, splitting an
interleaved buffer into the left (even-position) and right (odd-position)
channels; used by the stereo unpack helper get_LR, whose source is not in
the snapshot. -/
def deinterleave : List ℚ → List ℚ × List ℚ
  | a :: b :: rest =>
    let p := deinterleave rest
    (a :: p.1, b :: p.2)
  | _ => ([], [])

/-- Modelled from the spec: stereo pack helper pack_LR — deterministic
interleave of two channel sequences; fails with LengthMismatchError if the
channel lengths differ.  The pyaudio_helper source is not in the snapshot. -/
def pack_LR (left right : List ℚ) : Except DSPError (List ℚ) :=
  if left.length = right.length then .ok (interleave left right)
  else .error .LengthMismatchError

/-- Modelled from the spec: stereo unpack helper get_LR — splits an
interleaved stereo buffer into the two channels; fails with
LengthMismatchError if the interleaved buffer has odd length.  The
pyaudio_helper source is not in the snapshot. -/
def get_LR (x : List ℚ) : Except DSPError (List ℚ × List ℚ) :=
  if x.length % 2 = 0 then .ok (deinterleave x)
  else .error .LengthMismatchError

/-- Modelled from the spec: the capture buffer of section 4.3 — an
append-only sequence of samples bounded by a configured capacity (the
configured capture duration times the sample rate).  The pyaudio_helper
source is not in the snapshot. -/
structure CaptureState where
  capacity : Nat
  data_capture : List ℚ
deriving DecidableEq, Repr

/-- Modelled from the spec: DSP_capture_add_samples — appends to the buffer
only while the buffer has not yet reached its configured capacity; once
capacity is reached, further appends are silently dropped (back-pressure by
truncation, never blocking).  The pyaudio_helper source is not in the
snapshot. -/
def DSP_capture_add_samples (st : CaptureState) (samples : List ℚ) : CaptureState :=
  if st.data_capture.length < st.capacity then
    { st with data_capture :=
        st.data_capture ++ samples.take (st.capacity - st.data_capture.length) }
  else st

/-- Modelled from the spec: DSP_capture_add_samples_stereo — interleaves two
equal-length channel sequences before appending, under the same capacity
rule; mismatched channel lengths are a LengthMismatchError and nothing is
appended.  The pyaudio_helper source is not in the snapshot. -/
def DSP_capture_add_samples_stereo (st : CaptureState) (left right : List ℚ) :
    Except DSPError CaptureState :=
  if left.length = right.length then
    .ok (DSP_capture_add_samples st (interleave left right))
  else .error .LengthMismatchError

/-- One call in a sequence of capture-buffer appends: either a mono append
or a stereo append. -/
inductive CaptureOp where
  | mono (samples : List ℚ)
  | stereo (left right : List ℚ)

/-- The capture state after one append call; a stereo call whose channels
mismatch raises LengthMismatchError and leaves the buffer unchanged. -/
def applyCaptureOp (st : CaptureState) : CaptureOp → CaptureState
  | .mono samples => DSP_capture_add_samples st samples
  | .stereo left right =>
    match DSP_capture_add_samples_stereo st left right with
    | .ok st' => st'
    | .error _ => st

/-- The capture state after a sequence of append calls. -/
def runCapture (st : CaptureState) (ops : List CaptureOp) : CaptureState :=
  ops.foldl applyCaptureOp st

/-- Modelled from the spec: the capture buffer as configured on stream
construction — empty, with capacity equal to the configured capture duration
times the sample rate.  The pyaudio_helper source is not in the snapshot. -/
def initCapture (fs Tcapture : Nat) : CaptureState :=
  { capacity := Tcapture * fs, data_capture := [] }

/-- Modelled from the spec: the loop playback source of section 4.4 — a
fixed sample buffer x and a cursor (loop pointer) into it that wraps around
when the buffer is exhausted.  The pyaudio_helper loop_audio class is not in
the snapshot. -/
structure loop_audio where
  x : List ℚ
  loop_pointer : Nat
deriving DecidableEq, Repr

/-- Modelled from the spec: loop_audio.get_samples (next_chunk) — returns
the next count samples from the cursor; if fewer than count samples remain
before wraparound, the result concatenates the buffer tail with the
buffer's start; the cursor advances by count modulo the buffer length.
Fails with InvalidLengthError if count exceeds the buffer length.  The
pyaudio_helper source is not in the snapshot. -/
def loop_audio.get_samples (st : loop_audio) (count : Nat) :
    Except DSPError (List ℚ × loop_audio) :=
  if count > st.x.length then .error .InvalidLengthError
  else if count ≤ st.x.length - st.loop_pointer then
    .ok ((st.x.drop st.loop_pointer).take count,
      { st with loop_pointer := (st.loop_pointer + count) % st.x.length })
  else
    .ok (st.x.drop st.loop_pointer
           ++ st.x.take (count - (st.x.length - st.loop_pointer)),
      { st with loop_pointer := (st.loop_pointer + count) % st.x.length })

/-- The loop state after one next_chunk call: on success the advanced state,
on an error the state the object already had (the error is raised before any
cursor update). -/
def loop_audio.get_samples_run (st : loop_audio) (count : Nat) : loop_audio :=
  match st.get_samples count with
  | .ok (_, st') => st'
  | .error _ => st

/-- The mathematical cyclic read: count samples taken from the buffer
starting at the cursor, wrapping around as often as needed. -/
def loop_audio.readWrap (st : loop_audio) (count : Nat) : List ℚ :=
  (List.range count).map fun i => st.x.getD ((st.loop_pointer + i) % st.x.length) 0

/-- Run a sequence of next_chunk calls, concatenating their outputs in
order; fails as soon as one call fails. -/
def loop_audio.runChunks (st : loop_audio) : List Nat → Except DSPError (List ℚ × loop_audio)
  | [] => .ok ([], st)
  | c :: cs =>
    match st.get_samples c with
    | .error e => .error e
    | .ok (out, st') =>
      match st'.runChunks cs with
      | .error e => .error e
      | .ok (rest, st'') => .ok (out ++ rest, st'')

/-- Modelled from the spec: the timing instrumentation of section 4.2 — an
optional timestamp of an unmatched mark_start, and the sequence of recorded
callback durations.  The pyaudio_helper source is not in the snapshot. -/
structure TimingState where
  pending : Option ℚ
  durations : List ℚ
deriving DecidableEq, Repr

/-- Modelled from the spec: mark_start (DSP_callback_tic) — records a
timestamp; calling it again before the matching mark_stop violates the
pairing and is a PairingError.  The pyaudio_helper source is not in the
snapshot. -/
def DSP_callback_tic (st : TimingState) (t : ℚ) : Except DSPError TimingState :=
  match st.pending with
  | some _ => .error .PairingError
  | none => .ok { st with pending := some t }

/-- Modelled from the spec: mark_stop (DSP_callback_toc) — records a
timestamp, computes the elapsed duration since the pending mark_start and
appends it to the duration sequence; a mark_stop with no pending mark_start
is out of order and a PairingError.  The pyaudio_helper source is not in
the snapshot. -/
def DSP_callback_toc (st : TimingState) (t : ℚ) : Except DSPError TimingState :=
  match st.pending with
  | some t0 => .ok { pending := none, durations := st.durations ++ [t - t0] }
  | none => .error .PairingError

/-- Run an alternating sequence of mark_start/mark_stop pairs, each pair
given by its (start, stop) timestamps. -/
def runTicToc (st : TimingState) : List (ℚ × ℚ) → Except DSPError TimingState
  | [] => .ok st
  | (t0, t1) :: rest =>
    match DSP_callback_tic st t0 with
    | .error e => .error e
    | .ok st' =>
      match DSP_callback_toc st' t1 with
      | .error e => .error e
      | .ok st'' => runTicToc st'' rest

/-- The summary returned by stream_stats: the count, mean, maximum, and
spread of the recorded callback durations; the spread is carried as the
variance, whose nonnegative square root is the standard deviation (the
model works in exact rationals, where the square root itself need not
exist). -/
structure StreamStatsSummary where
  count : Nat
  mean : ℚ
  max : ℚ
  variance : ℚ
deriving DecidableEq, Repr

/-- Modelled from the spec: stream_stats (summary_statistics) — returns the
count, mean, max, and standard deviation (here via its square, the
variance) of the recorded callback durations, and an empty-result indicator
(none) when no durations have been recorded.  The pyaudio_helper source is
not in the snapshot. -/
def stream_stats (durations : List ℚ) : Option StreamStatsSummary :=
  match durations with
  | [] => none
  | d :: ds =>
    let n : ℚ := durations.length
    let mean := durations.sum / n
    some
      { count := durations.length
        mean := mean
        max := ds.foldl Max.max d
        variance := (durations.map fun x => (x - mean) ^ 2).sum / n }

/-- Modelled from the spec: the duplex stream wrapper of section 4.1 — the
configured frame length and sample rate, and the (optional) opaque handle
of the open native stream.  The pyaudio_helper DSPIOStream class is not in
the snapshot. -/
structure DSPIOStream where
  frame_length : Nat
  fs : Nat
  stream : Option Nat
deriving DecidableEq, Repr

/-- Modelled from the spec: start (interactive_stream) — asks the native
driver (an oracle mapping the requested frame length and sample rate to a
stream handle, or to a rejection) to open a duplex stream; on success the
wrapper holds the open handle, and a driver rejection is a DeviceError.
The pyaudio_helper source is not in the snapshot. -/
def start (driver : Nat → Nat → Option Nat) (st : DSPIOStream) :
    Except DSPError DSPIOStream :=
  match driver st.frame_length st.fs with
  | some h => .ok { st with stream := some h }
  | none => .error .DeviceError

/-- The wrapper state after a start call: on success the wrapper holding
the open stream, on a DeviceError the state it already had. -/
def start_run (driver : Nat → Nat → Option Nat) (st : DSPIOStream) : DSPIOStream :=
  match start driver st with
  | .ok st' => st'
  | .error _ => st

lemma interleave_length (l r : List ℚ) (h : l.length = r.length) :
    (interleave l r).length = l.length + r.length := by
  induction l generalizing r with
  | nil =>
    cases r with
    | nil => rfl
    | cons b bs => simp at h
  | cons a as ih =>
    cases r with
    | nil => simp at h
    | cons b bs =>
      simp only [List.length_cons] at h
      simp only [interleave, List.length_cons, ih bs (by omega)]
      omega

lemma deinterleave_interleave (l r : List ℚ) (h : l.length = r.length) :
    deinterleave (interleave l r) = (l, r) := by
  induction l generalizing r with
  | nil =>
    cases r with
    | nil => rfl
    | cons b bs => simp at h
  | cons a as ih =>
    cases r with
    | nil => simp at h
    | cons b bs =>
      simp only [List.length_cons] at h
      simp only [interleave, deinterleave, ih bs (by omega)]

lemma interleave_deinterleave (x : List ℚ) (h : x.length % 2 = 0) :
    interleave (deinterleave x).1 (deinterleave x).2 = x := by
  induction x using deinterleave.induct with
  | case1 a b rest ih =>
    simp only [List.length_cons] at h
    simp only [deinterleave, interleave]
    rw [ih (by omega)]
  | case2 x hx =>
    match x, hx with
    | [], _ => rfl
    | [a], h1 => simp at h
    | a :: b :: rest, h1 => exact absurd rfl (h1 a b rest)

lemma deinterleave_length_eq (x : List ℚ) (h : x.length % 2 = 0) :
    (deinterleave x).1.length = (deinterleave x).2.length := by
  induction x using deinterleave.induct with
  | case1 a b rest ih =>
    simp only [List.length_cons] at h
    simp only [deinterleave, List.length_cons]
    rw [ih (by omega)]
  | case2 x hx =>
    match x, hx with
    | [], _ => rfl
    | [a], h1 => simp at h
    | a :: b :: rest, h1 => exact absurd rfl (h1 a b rest)

/-- C1: packing two equal-length channel sequences into one interleaved
stereo sequence (pack_LR) and then unpacking it (get_LR) returns the
original two channel sequences exactly. -/
theorem pack_then_unpack_roundtrip (left right : List ℚ)
    (h : left.length = right.length) :
    pack_LR left right = .ok (interleave left right) ∧
    get_LR (interleave left right) = .ok (left, right) := by
  constructor
  · simp [pack_LR, h]
  · have hlen := interleave_length left right h
    have hmod : (interleave left right).length % 2 = 0 := by omega
    simp [get_LR, hmod, deinterleave_interleave left right h]

theorem pack_then_unpack_roundtrip_witness :
    pack_LR [1, 2] [3, 4] = .ok (interleave [1, 2] [3, 4]) ∧
    get_LR (interleave [1, 2] [3, 4]) = .ok ([1, 2], [3, 4]) :=
  pack_then_unpack_roundtrip [1, 2] [3, 4] (by decide)

/-- C10: unpacking an even-length interleaved stereo frame with get_LR and
re-interleaving the two channels with pack_LR returns the original
interleaved frame. -/
theorem unpack_then_pack_roundtrip (x : List ℚ) (h : x.length % 2 = 0) :
    get_LR x = .ok (deinterleave x) ∧
    pack_LR (deinterleave x).1 (deinterleave x).2 = .ok x := by
  constructor
  · simp [get_LR, h]
  · simp [pack_LR, deinterleave_length_eq x h, interleave_deinterleave x h]

theorem unpack_then_pack_roundtrip_witness :
    get_LR [1, 3, 2, 4] = .ok (deinterleave [1, 3, 2, 4]) ∧
    pack_LR (deinterleave [1, 3, 2, 4]).1 (deinterleave [1, 3, 2, 4]).2
      = .ok [1, 3, 2, 4] :=
  unpack_then_pack_roundtrip [1, 3, 2, 4] (by decide)

/-- C6: pack_LR fails with LengthMismatchError exactly when the two channel
sequences have different lengths, and get_LR fails with LengthMismatchError
exactly when the interleaved input has odd length; no other error is ever
produced and no error occurs on equal-length / even-length inputs. -/
theorem stereo_error_iff (left right x : List ℚ) (e : DSPError) :
    (pack_LR left right = .error e ↔
      left.length ≠ right.length ∧ e = .LengthMismatchError) ∧
    (get_LR x = .error e ↔ x.length % 2 ≠ 0 ∧ e = .LengthMismatchError) := by
  constructor
  · unfold pack_LR
    split <;> simp_all
    exact eq_comm
  · unfold get_LR
    split <;> simp_all
    exact eq_comm

lemma DSP_capture_add_samples_capacity (st : CaptureState) (samples : List ℚ) :
    (DSP_capture_add_samples st samples).capacity = st.capacity := by
  unfold DSP_capture_add_samples
  split <;> rfl

lemma applyCaptureOp_stereo (st : CaptureState) (left right : List ℚ) :
    applyCaptureOp st (.stereo left right)
      = if left.length = right.length
        then DSP_capture_add_samples st (interleave left right) else st := by
  by_cases hl : left.length = right.length <;>
    simp [applyCaptureOp, DSP_capture_add_samples_stereo, hl]

lemma applyCaptureOp_capacity (st : CaptureState) (op : CaptureOp) :
    (applyCaptureOp st op).capacity = st.capacity := by
  cases op with
  | mono samples => exact DSP_capture_add_samples_capacity st samples
  | stereo left right =>
    rw [applyCaptureOp_stereo]
    split
    · exact DSP_capture_add_samples_capacity st _
    · rfl

lemma applyCaptureOp_length_le (st : CaptureState) (op : CaptureOp)
    (h : st.data_capture.length ≤ st.capacity) :
    (applyCaptureOp st op).data_capture.length ≤ st.capacity := by
  have key : ∀ samples : List ℚ,
      (DSP_capture_add_samples st samples).data_capture.length ≤ st.capacity := by
    intro samples
    simp only [DSP_capture_add_samples]
    split
    · simp only [List.length_append, List.length_take]
      omega
    · exact h
  cases op with
  | mono samples => exact key samples
  | stereo left right =>
    rw [applyCaptureOp_stereo]
    split
    · exact key _
    · exact h

lemma runCapture_length_le (ops : List CaptureOp) :
    ∀ st : CaptureState, st.data_capture.length ≤ st.capacity →
      (runCapture st ops).data_capture.length ≤ (runCapture st ops).capacity := by
  induction ops with
  | nil => intro st h; exact h
  | cons op ops ih =>
    intro st h
    show (runCapture (applyCaptureOp st op) ops).data_capture.length ≤ _
    apply ih
    rw [applyCaptureOp_capacity]
    exact applyCaptureOp_length_le st op h

lemma runCapture_capacity (ops : List CaptureOp) :
    ∀ st : CaptureState, (runCapture st ops).capacity = st.capacity := by
  induction ops with
  | nil => intro st; rfl
  | cons op ops ih =>
    intro st
    show (runCapture (applyCaptureOp st op) ops).capacity = _
    rw [ih, applyCaptureOp_capacity]

/-- C2: starting from the empty capture buffer configured for Tcapture
seconds at fs samples per second, after any sequence of mono and stereo
append calls the buffer length never exceeds the configured capacity
Tcapture * fs; moreover any append arriving once the buffer has reached
its capacity leaves the state unchanged. -/
theorem capture_length_le_capacity (fs Tcapture : Nat) (ops : List CaptureOp) :
    (runCapture (initCapture fs Tcapture) ops).data_capture.length ≤ Tcapture * fs ∧
    ∀ (st : CaptureState) (op : CaptureOp),
      st.capacity ≤ st.data_capture.length → applyCaptureOp st op = st := by
  constructor
  · have h := runCapture_length_le ops (initCapture fs Tcapture) (by simp [initCapture])
    rwa [runCapture_capacity ops (initCapture fs Tcapture)] at h
  · intro st op hfull
    have key : ∀ samples : List ℚ, DSP_capture_add_samples st samples = st := by
      intro samples
      simp only [DSP_capture_add_samples]
      rw [if_neg (by omega)]
    cases op with
    | mono samples => exact key samples
    | stereo left right =>
      rw [applyCaptureOp_stereo]
      split
      · exact key _
      · rfl

theorem capture_length_le_capacity_witness :
    (runCapture (initCapture 2 1) [.mono [1, 2, 3]]).data_capture.length ≤ 1 * 2 ∧
    applyCaptureOp { capacity := 2, data_capture := [5, 6] } (.mono [7])
      = { capacity := 2, data_capture := [5, 6] } :=
  ⟨(capture_length_le_capacity 2 1 [.mono [1, 2, 3]]).1,
   (capture_length_le_capacity 2 1 [.mono [1, 2, 3]]).2
     { capacity := 2, data_capture := [5, 6] } (.mono [7]) (by decide)⟩

lemma runTicToc_ok (pairs : List (ℚ × ℚ)) :
    ∀ st : TimingState, st.pending = none →
      ∃ st' : TimingState, runTicToc st pairs = .ok st' ∧ st'.pending = none ∧
        st'.durations.length = st.durations.length + pairs.length := by
  induction pairs with
  | nil => intro st h; exact ⟨st, rfl, h, by simp⟩
  | cons pr rest ih =>
    intro st h
    obtain ⟨t0, t1⟩ := pr
    have htic : DSP_callback_tic st t0 = .ok { st with pending := some t0 } := by
      simp [DSP_callback_tic, h]
    have htoc : DSP_callback_toc { st with pending := some t0 } t1
        = .ok { pending := none, durations := st.durations ++ [t1 - t0] } := by
      simp [DSP_callback_toc]
    obtain ⟨st', hrun, hpend, hlen⟩ :=
      ih { pending := none, durations := st.durations ++ [t1 - t0] } rfl
    refine ⟨st', ?_, hpend, ?_⟩
    · simp only [runTicToc, htic, htoc]
      exact hrun
    · simp only [hlen, List.length_append, List.length_cons, List.length_nil]
      omega

/-- C8: a second mark_start (DSP_callback_tic) without an intervening
mark_stop (DSP_callback_toc) raises PairingError, while a properly
alternating tic/toc sequence raises no error and appends exactly one
duration per pair. -/
theorem tic_toc_pairing :
    (∀ (st st' : TimingState) (t1 t2 : ℚ), DSP_callback_tic st t1 = .ok st' →
      DSP_callback_tic st' t2 = .error .PairingError) ∧
    (∀ pairs : List (ℚ × ℚ), ∃ st' : TimingState,
      runTicToc { pending := none, durations := [] } pairs = .ok st' ∧
        st'.durations.length = pairs.length) := by
  constructor
  · intro st st' t1 t2 hok
    simp only [DSP_callback_tic] at hok ⊢
    cases hp : st.pending with
    | some t => simp [hp] at hok
    | none =>
      simp only [hp] at hok
      cases hok
      rfl
  · intro pairs
    obtain ⟨st', hrun, _, hlen⟩ :=
      runTicToc_ok pairs { pending := none, durations := [] } rfl
    exact ⟨st', hrun, by simpa using hlen⟩

theorem tic_toc_pairing_witness :
    DSP_callback_tic { pending := some 0, durations := [] } 1
      = .error .PairingError ∧
    ∃ st' : TimingState,
      runTicToc { pending := none, durations := [] } [(0, 10)] = .ok st' ∧
        st'.durations.length = 1 :=
  ⟨tic_toc_pairing.1 { pending := none, durations := [] }
      { pending := some 0, durations := [] } 0 1 rfl,
   tic_toc_pairing.2 [(0, 10)]⟩

/-- C7: stream_stats returns the empty-result indicator exactly when no
durations have been recorded, and on the recorded durations 10 ms, 20 ms,
30 ms it returns count 3, mean 20 ms, max 30 ms (with variance 200/3,
whose nonnegative square root is the standard deviation). -/
theorem stream_stats_spec :
    (∀ ds : List ℚ, stream_stats ds = none ↔ ds = []) ∧
    stream_stats [10, 20, 30]
      = some { count := 3, mean := 20, max := 30, variance := 200 / 3 } := by
  constructor
  · intro ds
    cases ds <;> simp [stream_stats]
  · simp only [stream_stats, List.length_cons, List.length_nil, List.sum_cons,
      List.sum_nil, List.map_cons, List.map_nil, List.foldl_cons, List.foldl_nil,
      Option.some.injEq, StreamStatsSummary.mk.injEq, max_def]
    norm_num

/-- C9: for every driver answer and every wrapper configuration, start
either opens the duplex stream (the wrapper then holds the driver's
handle) or fails with DeviceError leaving the wrapper's state unchanged —
it never leaves a partially opened stream. -/
theorem start_opens_or_device_error (driver : Nat → Nat → Option Nat)
    (st : DSPIOStream) :
    (∃ h : Nat, start driver st = .ok { st with stream := some h }) ∨
    (start driver st = .error .DeviceError ∧ start_run driver st = st) := by
  cases hd : driver st.frame_length st.fs with
  | some h => exact Or.inl ⟨h, by simp [start, hd]⟩
  | none => exact Or.inr ⟨by simp [start, hd], by simp [start_run, start, hd]⟩

lemma get_samples_take_form (st : loop_audio) (count : Nat) (hc : count ≤ st.x.length) :
    st.get_samples count =
      .ok ((st.x.drop st.loop_pointer ++ st.x).take count,
        { st with loop_pointer := (st.loop_pointer + count) % st.x.length }) := by
  have hdl : (st.x.drop st.loop_pointer).length = st.x.length - st.loop_pointer :=
    List.length_drop _ _
  unfold loop_audio.get_samples
  rw [if_neg (by omega)]
  by_cases hcr : count ≤ st.x.length - st.loop_pointer
  · rw [if_pos hcr, List.take_append_of_le_length (by omega)]
  · rw [if_neg hcr]
    have h2 := @List.take_append ℚ (st.x.drop st.loop_pointer) st.x
      (count - (st.x.length - st.loop_pointer))
    rw [hdl] at h2
    rw [show st.x.length - st.loop_pointer + (count - (st.x.length - st.loop_pointer))
        = count from by omega] at h2
    rw [h2]

lemma readWrap_eq_take (st : loop_audio) (count : Nat)
    (hptr : st.loop_pointer < st.x.length) (hc : count ≤ st.x.length) :
    st.readWrap count = (st.x.drop st.loop_pointer ++ st.x).take count := by
  have hdl : (st.x.drop st.loop_pointer).length = st.x.length - st.loop_pointer :=
    List.length_drop _ _
  apply List.ext_getElem
  · simp only [loop_audio.readWrap, List.length_map, List.length_range,
      List.length_take, List.length_append, hdl]
    omega
  · intro i h1 h2
    simp only [loop_audio.readWrap, List.length_map, List.length_range] at h1
    simp only [loop_audio.readWrap, List.getElem_map, List.getElem_range,
      List.getElem_take]
    by_cases hlt : i < st.x.length - st.loop_pointer
    · rw [List.getElem_append_left (by rw [hdl]; omega), List.getElem_drop]
      have hpi : st.loop_pointer + i < st.x.length := by omega
      rw [Nat.mod_eq_of_lt hpi, List.getD_eq_getElem _ _ hpi]
    · rw [List.getElem_append_right (by rw [hdl]; omega)]
      have hklt : i - (st.x.length - st.loop_pointer) < st.x.length := by omega
      have hk : st.loop_pointer + i
          = st.x.length + (i - (st.x.length - st.loop_pointer)) := by omega
      rw [hk, Nat.add_mod_left, Nat.mod_eq_of_lt hklt,
        List.getD_eq_getElem _ _ hklt]
      simp only [hdl]

lemma get_samples_eq_readWrap (st : loop_audio) (count : Nat)
    (hptr : st.loop_pointer < st.x.length) (hc : count ≤ st.x.length) :
    st.get_samples count =
      .ok (st.readWrap count,
        { st with loop_pointer := (st.loop_pointer + count) % st.x.length }) := by
  rw [get_samples_take_form st count hc, readWrap_eq_take st count hptr hc]

/-- C3: for every loop buffer with a valid cursor and every count not
exceeding the buffer length, get_samples (next_chunk) returns the count
samples read cyclically from the cursor (sample i is the buffer entry at
index (cursor + i) mod length, which stitches the buffer tail to the
buffer's start on wraparound), and afterwards the cursor has advanced by
count modulo the buffer length — in particular it is again a valid index. -/
theorem next_chunk_correct (st : loop_audio) (count : Nat)
    (hptr : st.loop_pointer < st.x.length) (hc : count ≤ st.x.length) :
    st.get_samples count =
      .ok (st.readWrap count,
        { st with loop_pointer := (st.loop_pointer + count) % st.x.length }) ∧
    (st.readWrap count).length = count ∧
    (st.get_samples_run count).loop_pointer < st.x.length := by
  have h := get_samples_eq_readWrap st count hptr hc
  refine ⟨h, ?_, ?_⟩
  · simp [loop_audio.readWrap]
  · simp only [loop_audio.get_samples_run, h]
    exact Nat.mod_lt _ (by omega)

theorem next_chunk_correct_witness :
    loop_audio.get_samples ⟨[1, 2, 3], 2⟩ 2
      = .ok (loop_audio.readWrap ⟨[1, 2, 3], 2⟩ 2, ⟨[1, 2, 3], (2 + 2) % 3⟩) ∧
    (loop_audio.readWrap ⟨[1, 2, 3], 2⟩ 2).length = 2 ∧
    (loop_audio.get_samples_run ⟨[1, 2, 3], 2⟩ 2).loop_pointer < 3 :=
  next_chunk_correct ⟨[1, 2, 3], 2⟩ 2 (by decide) (by decide)

/-- C5: get_samples (next_chunk) fails with InvalidLengthError whenever the
requested count exceeds the loop buffer's length, and the loop state — in
particular the cursor — is then unchanged. -/
theorem next_chunk_invalid_length (st : loop_audio) (count : Nat)
    (h : st.x.length < count) :
    st.get_samples count = .error .InvalidLengthError ∧
    st.get_samples_run count = st := by
  have he : st.get_samples count = .error .InvalidLengthError := by
    unfold loop_audio.get_samples
    rw [if_pos (by omega)]
  exact ⟨he, by simp only [loop_audio.get_samples_run, he]⟩

theorem next_chunk_invalid_length_witness :
    loop_audio.get_samples ⟨[1, 2], 0⟩ 3 = .error .InvalidLengthError ∧
    loop_audio.get_samples_run ⟨[1, 2], 0⟩ 3 = ⟨[1, 2], 0⟩ :=
  next_chunk_invalid_length ⟨[1, 2], 0⟩ 3 (by decide)

lemma readWrap_add (st : loop_audio) (a b : Nat) :
    st.readWrap (a + b) =
      st.readWrap a ++
        loop_audio.readWrap
          { st with loop_pointer := (st.loop_pointer + a) % st.x.length } b := by
  unfold loop_audio.readWrap
  rw [List.range_add, List.map_append, List.map_map]
  congr 1
  apply List.map_congr_left
  intro i _
  simp only [Function.comp_apply]
  congr 1
  rw [Nat.mod_add_mod, Nat.add_assoc]

lemma runChunks_eq_readWrap (counts : List Nat) :
    ∀ st : loop_audio, st.loop_pointer < st.x.length →
      (∀ c ∈ counts, c ≤ st.x.length) →
      st.runChunks counts =
        .ok (st.readWrap counts.sum,
          { st with loop_pointer := (st.loop_pointer + counts.sum) % st.x.length }) := by
  induction counts with
  | nil =>
    intro st hptr _
    simp [loop_audio.runChunks, loop_audio.readWrap, Nat.mod_eq_of_lt hptr]
  | cons c cs ih =>
    intro st hptr hall
    have hc : c ≤ st.x.length := hall c (List.mem_cons_self c cs)
    have hL : 0 < st.x.length := by omega
    have h1 := get_samples_eq_readWrap st c hptr hc
    have hptr1 : (st.loop_pointer + c) % st.x.length < st.x.length := Nat.mod_lt _ hL
    have ih1 := ih { st with loop_pointer := (st.loop_pointer + c) % st.x.length }
      hptr1 (fun d hd => hall d (List.mem_cons_of_mem c hd))
    have hmod : ((st.loop_pointer + c) % st.x.length + cs.sum) % st.x.length
        = (st.loop_pointer + (c + cs.sum)) % st.x.length := by
      rw [Nat.mod_add_mod, Nat.add_assoc]
    simp only [loop_audio.runChunks, h1, ih1, List.sum_cons, hmod,
      readWrap_add st c cs.sum]

/-- C4 (amended): for every loop buffer with a valid cursor, any sequence of
next_chunk calls whose counts are each at most the buffer length succeeds
and yields, concatenated in order, exactly the cyclic read of N = sum of
the counts samples from the starting cursor; whenever N itself is at most
the buffer length this equals the result of the single request for N
samples from the same starting cursor (a single request for a larger N
instead fails with InvalidLengthError). -/
theorem next_chunk_split_eq_cyclic_read (st : loop_audio) (counts : List Nat)
    (hptr : st.loop_pointer < st.x.length)
    (hall : ∀ c ∈ counts, c ≤ st.x.length) :
    st.runChunks counts =
      .ok (st.readWrap counts.sum,
        { st with loop_pointer := (st.loop_pointer + counts.sum) % st.x.length }) ∧
    (counts.sum ≤ st.x.length →
      st.get_samples counts.sum =
        .ok (st.readWrap counts.sum,
          { st with loop_pointer := (st.loop_pointer + counts.sum) % st.x.length })) :=
  ⟨runChunks_eq_readWrap counts st hptr hall,
   fun hN => get_samples_eq_readWrap st counts.sum hptr hN⟩

theorem next_chunk_split_eq_cyclic_read_witness :
    loop_audio.runChunks ⟨[1, 2], 0⟩ [1, 1] =
      .ok (loop_audio.readWrap ⟨[1, 2], 0⟩ ([1, 1] : List Nat).sum,
        ⟨[1, 2], (0 + ([1, 1] : List Nat).sum) % 2⟩) ∧
    (([1, 1] : List Nat).sum ≤ 2 →
      loop_audio.get_samples ⟨[1, 2], 0⟩ ([1, 1] : List Nat).sum =
        .ok (loop_audio.readWrap ⟨[1, 2], 0⟩ ([1, 1] : List Nat).sum,
          ⟨[1, 2], (0 + ([1, 1] : List Nat).sum) % 2⟩)) :=
  next_chunk_split_eq_cyclic_read ⟨[1, 2], 0⟩ [1, 1] (by decide) (by decide)

/-- C4 as stated is false on the model: with loop buffer [1, 2] (length 2)
and starting cursor 0, the counts [2, 2] (each at most the buffer length,
total N = 4 at most twice the buffer length) concatenate to [1, 2, 1, 2],
while the single request for N = 4 samples does not yield that sequence —
it fails with InvalidLengthError, since 4 exceeds the buffer length. -/
theorem next_chunk_split_counterexample :
    loop_audio.runChunks ⟨[1, 2], 0⟩ [2, 2]
      = .ok ([1, 2, 1, 2], ⟨[1, 2], 0⟩) ∧
    loop_audio.get_samples ⟨[1, 2], 0⟩ 4 = .error .InvalidLengthError :=
  ⟨rfl, rfl⟩
